import Mathlib

/-!
# PixelSynth — verification of the additive grid synthesizer

Shallow embedding of `src/App.py` (the PixelSynth toy sequencer) over the
real numbers.  numpy float arrays become functions `ℕ → ℝ`; the pseudo-random
noise drawn by `np.random.uniform(-1, 1, len(t))` inside `synth_note` becomes
an explicit noise-source parameter (one independent stream per grid cell,
indexed by sample position); the grid `np.zeros((64, 64, 3), dtype=np.uint8)`
becomes a total function from (row, column) to RGB triples of naturals.

The slice assignment `audio[start:end] += note[:min(len(note), end-start)]`
of `grid_to_audio` is embedded by `sliceAdd`, which clamps the written window
to the buffer length exactly as a numpy slice does and truncates the note to
`min(len(note), end-start)` elements as the source does.
-/

namespace PixelSynth

/-- `GRID_SIZE = 64` (App.py line 33). -/
def GRID_SIZE : ℕ := 64

/-- `SAMPLE_RATE = 44100` (App.py line 36). -/
def SAMPLE_RATE : ℕ := 44100

/-- `LOOP_LEN_SEC = 4` (App.py line 38). -/
def LOOP_LEN_SEC : ℕ := 4

/-- An RGB color triple, as stored in one grid cell. -/
abbrev Color : Type := ℕ × ℕ × ℕ

/-- The registered instrument table `INSTRUMENTS` (App.py lines 39-45):
color, display name, shortcut key (glyphs omitted). -/
def INSTRUMENTS : List (Color × String × String) :=
  [((255, 80, 80), "Kick", "1"),
   ((80, 160, 255), "Snare", "2"),
   ((100, 220, 100), "Hi-Hat", "3"),
   ((255, 230, 100), "Bass", "4"),
   ((200, 120, 255), "Lead", "5")]

/-- The color → instrument-index lookup `COLOR_TO_IDX` (App.py line 46),
a dictionary keyed by the five exact instrument colors.  Embedded as the
corresponding decision chain. -/
def COLOR_TO_IDX (c : Color) : Option ℕ :=
  if c = (255, 80, 80) then some 0
  else if c = (80, 160, 255) then some 1
  else if c = (100, 220, 100) then some 2
  else if c = (255, 230, 100) then some 3
  else if c = (200, 120, 255) then some 4
  else none

/-- `step_samples = SAMPLE_RATE * LOOP_LEN_SEC // steps` with
`steps = GRID_SIZE` (App.py lines 91-92); `//` is floor division. -/
def stepSamples : ℕ := SAMPLE_RATE * LOOP_LEN_SEC / GRID_SIZE

/-- Length of the output buffer: `np.zeros(LOOP_LEN_SEC * SAMPLE_RATE)`
(App.py line 93). -/
def numSamples : ℕ := LOOP_LEN_SEC * SAMPLE_RATE

/-- A grid: row, column ↦ cell color (App.py line 59; `grid[y, x]`). -/
abbrev GridT : Type := ℕ → ℕ → Color

/-- A noise source: column, row, sample-position ↦ the value that
`np.random.uniform(-1, 1, len(t))` draws for that cell's note at that
sample.  Each `synth_note` call in the rendering loop draws a fresh
array, hence one stream per (x, y). -/
abbrev Noise : Type := ℕ → ℕ → ℕ → ℝ

/-- `synth_note(inst_idx, t)` (App.py lines 66-87), per sample: `noise` is
the value the uniform noise array holds at this sample position and `t`
the time offset in seconds at this sample position.  Instruments:
0 Kick, 1 Snare, 2 Hi-Hat, 3 Bass, 4 Lead; any other index returns the
zero array. -/
noncomputable def synth_note (inst_idx : ℕ) (noise t : ℝ) : ℝ :=
  if inst_idx = 0 then
    0.8 * Real.exp (-t * 8) * Real.sin (2 * Real.pi * 55 * (1 - 0.5 * t) * t)
  else if inst_idx = 1 then
    Real.exp (-t * 12) * (0.7 * noise + 0.3 * (Real.sin (2 * Real.pi * 220 * t) * 0.3))
  else if inst_idx = 2 then
    0.5 * Real.exp (-t * 30) * noise
  else if inst_idx = 3 then
    0.7 * Real.exp (-t * 4) * Real.sin (2 * Real.pi * 110 * t)
  else if inst_idx = 4 then
    0.5 * Real.exp (-t * 2) *
      (Real.sin (2 * Real.pi * 440 * t) + Real.sin (2 * Real.pi * 660 * t) * 0.5 +
        Real.sin (2 * Real.pi * 880 * t) * 0.3)
  else 0

/-- The note array passed to the slice write for instrument `i` at cell
(column `x`, row `y`): sample `j` of `synth_note(i, t)` where
`t = np.linspace(0, step_samples/SAMPLE_RATE, step_samples, endpoint=False)`
takes value `j / SAMPLE_RATE` at position `j` (App.py lines 99-100). -/
noncomputable def noteFun (ν : Noise) (i x y : ℕ) : ℕ → ℝ :=
  fun j => synth_note i (ν x y j) ((j : ℝ) / (SAMPLE_RATE : ℝ))

/-- `audio[start:end] += note[:len]` on a buffer of `bufLen` samples
(App.py line 103): a numpy slice clamps its stop index to the buffer
length, and positions `start ≤ n < min (start + len) bufLen` receive
`note (n - start)`. -/
noncomputable def sliceAdd (buf : ℕ → ℝ) (start len bufLen : ℕ) (note : ℕ → ℝ) :
    ℕ → ℝ :=
  fun n =>
    if start ≤ n ∧ n < min (start + len) bufLen then buf n + note (n - start)
    else buf n

/-- One iteration of the inner rendering loop (App.py lines 96-103): read
`grid[y, x]`, look its color up, and on a hit slice-add the synthesized
note into `[start, end) = [x*step_samples, x*step_samples + step_samples)`,
truncated to `note[:min(len(note), end - start)]`. -/
noncomputable def updateCell (grid : GridT) (ν : Noise) (x y : ℕ) (buf : ℕ → ℝ) :
    ℕ → ℝ :=
  match COLOR_TO_IDX (grid y x) with
  | some i =>
      sliceAdd buf (x * stepSamples)
        (min stepSamples ((x * stepSamples + stepSamples) - x * stepSamples))
        numSamples (noteFun ν i x y)
  | none => buf

/-- The pre-normalization accumulation loop of `grid_to_audio`
(App.py lines 93-103): start from the zero buffer and fold the per-cell
update over `x` in `range(steps)` and `y` in `range(GRID_SIZE)`. -/
noncomputable def audioRaw (grid : GridT) (ν : Noise) : ℕ → ℝ :=
  (List.range GRID_SIZE).foldl
    (fun buf x =>
      (List.range GRID_SIZE).foldl (fun b y => updateCell grid ν x y b) buf)
    (fun _ => 0)

/-- The closed form of one cell's contribution to sample `n`: zero unless
the color is registered and `n` lies in the cell's step window. -/
noncomputable def cellTerm (grid : GridT) (ν : Noise) (x y n : ℕ) : ℝ :=
  match COLOR_TO_IDX (grid y x) with
  | some i =>
      if x * stepSamples ≤ n ∧ n < min (x * stepSamples + stepSamples) numSamples then
        synth_note i (ν x y (n - x * stepSamples))
          ((↑(n - x * stepSamples) : ℝ) / (SAMPLE_RATE : ℝ))
      else 0
  | none => 0

/-- The sample range of the buffer is nonempty (`176400 > 0`). -/
def numSamples_range_nonempty : (Finset.range numSamples).Nonempty :=
  ⟨0, Finset.mem_range.mpr (by decide)⟩

/-- `np.max(np.abs(audio))` over the buffer (App.py line 105). -/
noncomputable def rawPeak (grid : GridT) (ν : Noise) : ℝ :=
  (Finset.range numSamples).sup' numSamples_range_nonempty
    (fun n => |audioRaw grid ν n|)

/-- `grid_to_audio(grid)` (App.py lines 89-106): accumulate, then
normalize by `np.max(np.abs(audio)) + 1e-6`. -/
noncomputable def grid_to_audio (grid : GridT) (ν : Noise) : ℕ → ℝ :=
  fun n => audioRaw grid ν n / (rawPeak grid ν + 1e-6)

/-- One inner-loop iteration of `grid_to_audio` with the grid threaded
explicitly as state: the body only reads `grid[y, x]`, so the state
component is returned unchanged. -/
noncomputable def updateCellSt (ν : Noise) (x y : ℕ) (acc : (ℕ → ℝ) × GridT) :
    (ℕ → ℝ) × GridT :=
  (updateCell acc.2 ν x y acc.1, acc.2)

/-- The accumulation loop nest with the grid threaded as explicit state:
buffer and grid state after the full double loop. -/
noncomputable def audioRawSt (grid : GridT) (ν : Noise) : (ℕ → ℝ) × GridT :=
  (List.range GRID_SIZE).foldl
    (fun acc x =>
      (List.range GRID_SIZE).foldl (fun acc2 y => updateCellSt ν x y acc2) acc)
    ((fun _ => 0), grid)

/-- `grid_to_audio` with the grid threaded as explicit state through the
whole loop nest and normalization, returning the buffer together with the
final grid state. -/
noncomputable def grid_to_audio_st (grid : GridT) (ν : Noise) : (ℕ → ℝ) × GridT :=
  ((fun n =>
      (audioRawSt grid ν).1 n /
        ((Finset.range numSamples).sup' numSamples_range_nonempty
            (fun m => |(audioRawSt grid ν).1 m|) + 1e-6)),
    (audioRawSt grid ν).2)

/-- Writing one cell: `grid[y, x] = v` (App.py lines 278, 280, 196, 199). -/
def setCell (g : GridT) (y x : ℕ) (v : Color) : GridT :=
  fun r c => if r = y ∧ c = x then v else g r c

/-- The grid as allocated at startup:
`np.zeros((GRID_SIZE, GRID_SIZE, 3), dtype=np.uint8)` (App.py line 59). -/
def initGrid : GridT := fun _ _ => (0, 0, 0)

/-- The color of registered instrument `i` : `INSTRUMENTS[i][0]`. -/
def instColor (i : Fin 5) : Color :=
  (INSTRUMENTS.get ⟨i.val, by have h : INSTRUMENTS.length = 5 := rfl; omega⟩).1

/-- Left-click painting: `grid[gy, gx] = INSTRUMENTS[current_color_idx][0]`
(App.py lines 277-278, 292-293); `current_color_idx` always lies in 0..4. -/
def paintCell (g : GridT) (y x : ℕ) (idx : Fin 5) : GridT :=
  setCell g y x (instColor idx)

/-- Right-click erasing: `grid[gy, gx] = (0, 0, 0)` (App.py lines 279-280,
294-295). -/
def eraseCell (g : GridT) (y x : ℕ) : GridT :=
  setCell g y x (0, 0, 0)

/-- Reset: `grid[:, :] = 0` (App.py line 255). -/
def resetGrid (_g : GridT) : GridT := fun _ _ => (0, 0, 0)

/-- One iteration of `mutate_grid` (App.py lines 190-199) with the random
draws made explicit: coordinates `x, y` from `randint(0, GRID_SIZE-1)`, the
branch coin `flip` (`random.random() < 0.5`), and the instrument draw `r`
from `randint(0, 4)`.  The flip branch recolors the cell; the other branch
copies `grid[x % GRID_SIZE, y % GRID_SIZE]` into `grid[y, x]`. -/
def mutateStep (g : GridT) (x y : ℕ) (flip : Bool) (r : Fin 5) : GridT :=
  if flip then setCell g y x (instColor r)
  else setCell g y x (g (x % GRID_SIZE) (y % GRID_SIZE))

/-- `mutate_grid()` (App.py lines 190-199): fold `mutateStep` over the list
of random draws made during the loop. -/
def mutate_grid (g : GridT) (choices : List (ℕ × ℕ × Bool × Fin 5)) : GridT :=
  choices.foldl (fun gg ch => mutateStep gg ch.1 ch.2.1 ch.2.2.1 ch.2.2.2) g

/-- A color the grid invariant allows: one of the five registered
instrument colors, or the background `(0, 0, 0)`. -/
def validColor (c : Color) : Prop :=
  c ∈ INSTRUMENTS.map (fun p => p.1) ∨ c = (0, 0, 0)

/-- The grid invariant: every cell's color is valid. -/
def validGrid (g : GridT) : Prop :=
  ∀ y x, validColor (g y x)

/-- A grid holding instrument color `c` at row `y0`, column `x0`, and the
background color everywhere else. -/
def singleCell (y0 x0 : ℕ) (c : Color) : GridT :=
  setCell initGrid y0 x0 c

/-- A grid holding color `c` at rows `y1` and `y2` of column `x0`, and the
background color everywhere else. -/
def twoCell (y1 y2 x0 : ℕ) (c : Color) : GridT :=
  setCell (singleCell y1 x0 c) y2 x0 c

/-- The Kick note shape exactly as the spec words it. -/
noncomputable def kickShapeSpec (t : ℝ) : ℝ :=
  0.8 * Real.exp (-8 * t) * Real.sin (2 * Real.pi * 55 * (1 - 0.5 * t) * t)

/-- The Snare note shape exactly as the claim words it: `exp(-12 t)` times
the blend of 70% noise and 30% of a sine at 220Hz. -/
noncomputable def snareShapeSpec (noise t : ℝ) : ℝ :=
  Real.exp (-12 * t) * (0.7 * noise + 0.3 * Real.sin (2 * Real.pi * 220 * t))

/-- Noise source that always draws 0. -/
def zeroNoise : Noise := fun _ _ _ => (0 : ℝ)

/-- Noise source that always draws 1 (a legal value of `uniform(-1,1)`). -/
def onesNoise : Noise := fun _ _ _ => (1 : ℝ)

/-- Concrete fixture: a single Hi-Hat cell at row 0, column 0. -/
def hhGrid : GridT := singleCell 0 0 (100, 220, 100)

/-- Concrete fixture: a single Kick cell at row 0, column 0. -/
def kickGrid : GridT := singleCell 0 0 (255, 80, 80)

/-- Exhaustive case analysis of a successful color lookup. -/
theorem colorIdx_cases (c : Color) (i : ℕ) (h : COLOR_TO_IDX c = some i) :
    (c = (255, 80, 80) ∧ i = 0) ∨ (c = (80, 160, 255) ∧ i = 1) ∨
    (c = (100, 220, 100) ∧ i = 2) ∨ (c = (255, 230, 100) ∧ i = 3) ∨
    (c = (200, 120, 255) ∧ i = 4) := by
  unfold COLOR_TO_IDX at h
  split_ifs at h with h1 h2 h3 h4 h5
  · exact Or.inl ⟨h1, (Option.some_inj.mp h).symm⟩
  · exact Or.inr (Or.inl ⟨h2, (Option.some_inj.mp h).symm⟩)
  · exact Or.inr (Or.inr (Or.inl ⟨h3, (Option.some_inj.mp h).symm⟩))
  · exact Or.inr (Or.inr (Or.inr (Or.inl ⟨h4, (Option.some_inj.mp h).symm⟩)))
  · exact Or.inr (Or.inr (Or.inr (Or.inr ⟨h5, (Option.some_inj.mp h).symm⟩)))

/-- Kick, Bass and Lead never read the noise argument. -/
theorem synth_note_det (i : ℕ) (h : i = 0 ∨ i = 3 ∨ i = 4) (a b t : ℝ) :
    synth_note i a t = synth_note i b t := by
  rcases h with h | h | h <;> subst h <;> norm_num [synth_note]

/-- A cell whose color is not registered contributes nothing. -/
theorem cellTerm_none (g : GridT) (ν : Noise) (x y n : ℕ)
    (h : COLOR_TO_IDX (g y x) = none) : cellTerm g ν x y n = 0 := by
  unfold cellTerm
  rw [h]

/-- A registered cell contributes its windowed note sample. -/
theorem cellTerm_some (g : GridT) (ν : Noise) (x y n i : ℕ)
    (h : COLOR_TO_IDX (g y x) = some i) :
    cellTerm g ν x y n
      = if x * stepSamples ≤ n ∧ n < min (x * stepSamples + stepSamples) numSamples then
          synth_note i (ν x y (n - x * stepSamples))
            ((↑(n - x * stepSamples) : ℝ) / (SAMPLE_RATE : ℝ))
        else 0 := by
  unfold cellTerm
  rw [h]

/-- A cell's contribution depends on the grid only through that cell. -/
theorem cellTerm_congr (g1 g2 : GridT) (ν : Noise) (x y n : ℕ)
    (h : g1 y x = g2 y x) : cellTerm g1 ν x y n = cellTerm g2 ν x y n := by
  unfold cellTerm
  rw [h]

/-- The background color is not registered. -/
theorem colorIdx_background : COLOR_TO_IDX (0, 0, 0) = none := by decide

/-- One loop iteration adds exactly the cell's windowed contribution. -/
theorem updateCell_eq (grid : GridT) (ν : Noise) (x y : ℕ) (buf : ℕ → ℝ) :
    updateCell grid ν x y buf = fun n => buf n + cellTerm grid ν x y n := by
  cases h : COLOR_TO_IDX (grid y x) with
  | none =>
      have hu : updateCell grid ν x y buf = buf := by
        unfold updateCell
        rw [h]
      funext n
      rw [hu, cellTerm_none grid ν x y n h]
      simp
  | some i =>
      have hu : updateCell grid ν x y buf
          = sliceAdd buf (x * stepSamples)
              (min stepSamples ((x * stepSamples + stepSamples) - x * stepSamples))
              numSamples (noteFun ν i x y) := by
        unfold updateCell
        rw [h]
      funext n
      rw [hu, cellTerm_some grid ν x y n i h]
      unfold sliceAdd noteFun
      have hmin :
          min stepSamples ((x * stepSamples + stepSamples) - x * stepSamples)
            = stepSamples := by
        rw [Nat.add_sub_cancel_left, min_self]
      rw [hmin]
      split <;> simp

/-- Sums over `List.range` agree with sums over `Finset.range`. -/
theorem list_range_sum (f : ℕ → ℝ) (m : ℕ) :
    ((List.range m).map f).sum = ∑ i in Finset.range m, f i := by
  induction m with
  | zero => simp
  | succ k ih =>
      rw [List.range_succ, List.map_append, List.sum_append, Finset.sum_range_succ, ih]
      simp

/-- The inner (row) loop accumulates the row's contributions. -/
theorem foldl_row (grid : GridT) (ν : Noise) (x : ℕ) :
    ∀ (l : List ℕ) (buf : ℕ → ℝ),
      l.foldl (fun b y => updateCell grid ν x y b) buf
        = fun n => buf n + (l.map (fun y => cellTerm grid ν x y n)).sum := by
  intro l
  induction l with
  | nil =>
      intro buf
      funext n
      simp
  | cons a l ih =>
      intro buf
      funext n
      simp only [List.foldl_cons]
      have h2 := congrFun (ih (updateCell grid ν x a buf)) n
      have h3 := congrFun (updateCell_eq grid ν x a buf) n
      rw [h2, h3]
      simp [add_assoc]

/-- The outer (column) loop accumulates all contributions. -/
theorem foldl_grid (grid : GridT) (ν : Noise) :
    ∀ (l : List ℕ) (buf : ℕ → ℝ),
      l.foldl
        (fun b x => (List.range GRID_SIZE).foldl (fun b2 y => updateCell grid ν x y b2) b)
        buf
        = fun n =>
            buf n +
              (l.map (fun x =>
                ((List.range GRID_SIZE).map (fun y => cellTerm grid ν x y n)).sum)).sum := by
  intro l
  induction l with
  | nil =>
      intro buf
      funext n
      simp
  | cons a l ih =>
      intro buf
      funext n
      simp only [List.foldl_cons]
      have h2 := congrFun (ih ((List.range GRID_SIZE).foldl
        (fun b2 y => updateCell grid ν a y b2) buf)) n
      have h3 := congrFun (foldl_row grid ν a (List.range GRID_SIZE) buf) n
      rw [h2, h3]
      simp [add_assoc]

/-- The rendering loop computes, at each sample, the sum over all cells of
their windowed contributions. -/
theorem audioRaw_eq (grid : GridT) (ν : Noise) (n : ℕ) :
    audioRaw grid ν n
      = ∑ x in Finset.range GRID_SIZE, ∑ y in Finset.range GRID_SIZE,
          cellTerm grid ν x y n := by
  unfold audioRaw
  rw [congrFun (foldl_grid grid ν (List.range GRID_SIZE) (fun _ => 0)) n]
  rw [list_range_sum]
  simp only [list_range_sum]
  simp

/-- `audioRaw_eq`, as a single sum over the cell product set. -/
theorem audioRaw_eq_prod (grid : GridT) (ν : Noise) (n : ℕ) :
    audioRaw grid ν n
      = ∑ p in Finset.range GRID_SIZE ×ˢ Finset.range GRID_SIZE,
          cellTerm grid ν p.1 p.2 n := by
  rw [audioRaw_eq, Finset.sum_product]

set_option maxRecDepth 16384

/-- Overwriting one in-range cell changes the buffer by swapping that
cell's contribution. -/
theorem raw_setCell (g : GridT) (ν : Noise) (y0 x0 : ℕ)
    (hy : y0 < GRID_SIZE) (hx : x0 < GRID_SIZE) (c : Color) (n : ℕ) :
    audioRaw (setCell g y0 x0 c) ν n
      = audioRaw g ν n - cellTerm g ν x0 y0 n
          + cellTerm (setCell g y0 x0 c) ν x0 y0 n := by
  have hp : (x0, y0) ∈ Finset.range GRID_SIZE ×ˢ Finset.range GRID_SIZE :=
    Finset.mem_product.mpr ⟨Finset.mem_range.mpr hx, Finset.mem_range.mpr hy⟩
  rw [audioRaw_eq_prod, audioRaw_eq_prod]
  rw [← Finset.sum_erase_add _ _ hp, ← Finset.sum_erase_add _ _ hp]
  have he :
      ∑ p in (Finset.range GRID_SIZE ×ˢ Finset.range GRID_SIZE).erase (x0, y0),
          cellTerm (setCell g y0 x0 c) ν p.1 p.2 n
        = ∑ p in (Finset.range GRID_SIZE ×ˢ Finset.range GRID_SIZE).erase (x0, y0),
            cellTerm g ν p.1 p.2 n := by
    apply Finset.sum_congr rfl
    intro p hpmem
    have hne : p ≠ (x0, y0) := (Finset.mem_erase.mp hpmem).1
    apply cellTerm_congr
    have hcond : ¬(p.2 = y0 ∧ p.1 = x0) := by
      rintro ⟨h2, h1⟩
      apply hne
      cases p
      simp_all
    simp [setCell, hcond]
  rw [he]
  ring

/-- The freshly allocated all-zero grid renders to the zero buffer
(before normalization). -/
theorem raw_initGrid (ν : Noise) (n : ℕ) : audioRaw initGrid ν n = 0 := by
  rw [audioRaw_eq]
  apply Finset.sum_eq_zero
  intro x _
  apply Finset.sum_eq_zero
  intro y _
  exact cellTerm_none _ _ _ _ _ colorIdx_background

/-- Closed form for a one-cell grid's pre-normalization buffer. -/
theorem raw_single (y0 x0 : ℕ) (hy : y0 < GRID_SIZE) (hx : x0 < GRID_SIZE)
    (c : Color) (i : ℕ) (hc : COLOR_TO_IDX c = some i) (ν : Noise) (n : ℕ) :
    audioRaw (singleCell y0 x0 c) ν n
      = if x0 * stepSamples ≤ n ∧ n < min (x0 * stepSamples + stepSamples) numSamples then
          synth_note i (ν x0 y0 (n - x0 * stepSamples))
            ((↑(n - x0 * stepSamples) : ℝ) / (SAMPLE_RATE : ℝ))
        else 0 := by
  unfold singleCell
  rw [raw_setCell initGrid ν y0 x0 hy hx c n, raw_initGrid]
  rw [cellTerm_none initGrid ν x0 y0 n colorIdx_background]
  have h2 : (setCell initGrid y0 x0 c) y0 x0 = c := by simp [setCell]
  have h3 : COLOR_TO_IDX ((setCell initGrid y0 x0 c) y0 x0) = some i := by
    rw [h2]; exact hc
  rw [cellTerm_some _ ν x0 y0 n i h3]
  ring

/-- Closed form for a two-cell (same column, distinct rows, same color)
grid's pre-normalization buffer. -/
theorem raw_two (y1 y2 x0 : ℕ) (hne : y1 ≠ y2)
    (hy1 : y1 < GRID_SIZE) (hy2 : y2 < GRID_SIZE) (hx : x0 < GRID_SIZE)
    (c : Color) (i : ℕ) (hc : COLOR_TO_IDX c = some i) (ν : Noise) (n : ℕ) :
    audioRaw (twoCell y1 y2 x0 c) ν n
      = (if x0 * stepSamples ≤ n ∧ n < min (x0 * stepSamples + stepSamples) numSamples then
          synth_note i (ν x0 y1 (n - x0 * stepSamples))
            ((↑(n - x0 * stepSamples) : ℝ) / (SAMPLE_RATE : ℝ))
        else 0)
        + (if x0 * stepSamples ≤ n ∧ n < min (x0 * stepSamples + stepSamples) numSamples then
          synth_note i (ν x0 y2 (n - x0 * stepSamples))
            ((↑(n - x0 * stepSamples) : ℝ) / (SAMPLE_RATE : ℝ))
        else 0) := by
  unfold twoCell
  rw [raw_setCell (singleCell y1 x0 c) ν y2 x0 hy2 hx c n]
  rw [raw_single y1 x0 hy1 hx c i hc]
  have hcol : (singleCell y1 x0 c) y2 x0 = (0, 0, 0) := by
    have hcond : ¬(y2 = y1 ∧ x0 = x0) := fun hcc => hne hcc.1.symm
    unfold singleCell setCell
    rw [if_neg hcond]
    rfl
  have h0 : COLOR_TO_IDX ((singleCell y1 x0 c) y2 x0) = none := by
    rw [hcol]
    exact colorIdx_background
  rw [cellTerm_none _ ν x0 y2 n h0]
  have h3 : COLOR_TO_IDX ((setCell (singleCell y1 x0 c) y2 x0 c) y2 x0) = some i := by
    have hval : (setCell (singleCell y1 x0 c) y2 x0 c) y2 x0 = c := by simp [setCell]
    rw [hval]; exact hc
  rw [cellTerm_some _ ν x0 y2 n i h3]
  ring

/-- Samples at or beyond `GRID_SIZE * stepSamples = 176384` receive no
contribution from any cell. -/
theorem raw_zero_tail (grid : GridT) (ν : Noise) (n : ℕ)
    (h : GRID_SIZE * stepSamples ≤ n) : audioRaw grid ν n = 0 := by
  rw [audioRaw_eq]
  apply Finset.sum_eq_zero
  intro x hx
  apply Finset.sum_eq_zero
  intro y _
  cases hcol : COLOR_TO_IDX (grid y x) with
  | none => exact cellTerm_none _ _ _ _ _ hcol
  | some i =>
      rw [cellTerm_some _ _ _ _ _ _ hcol]
      have hx64 : x < GRID_SIZE := Finset.mem_range.mp hx
      have hstep : stepSamples = 2756 := by decide
      have hG : GRID_SIZE = 64 := rfl
      have hcond :
          ¬(x * stepSamples ≤ n ∧ n < min (x * stepSamples + stepSamples) numSamples) := by
        rintro ⟨_, hc2⟩
        have h5 : n < x * stepSamples + stepSamples :=
          lt_of_lt_of_le hc2 (min_le_left _ _)
        rw [hstep] at h5
        rw [hstep, hG] at h
        rw [hG] at hx64
        omega
      rw [if_neg hcond]

/-- Every in-range sample is bounded by the raw peak. -/
theorem abs_raw_le_rawPeak (grid : GridT) (ν : Noise) (n : ℕ) (h : n < numSamples) :
    |audioRaw grid ν n| ≤ rawPeak grid ν := by
  unfold rawPeak
  exact Finset.le_sup' (fun m => |audioRaw grid ν m|) (Finset.mem_range.mpr h)

/-- The raw peak is nonnegative. -/
theorem rawPeak_nonneg (grid : GridT) (ν : Noise) : 0 ≤ rawPeak grid ν :=
  le_trans (abs_nonneg _)
    (abs_raw_le_rawPeak grid ν 0 (by decide))

/-- At the sine's quarter period the argument of the Snare's sine is π/2. -/
theorem snare_sin_at_quarter : Real.sin (2 * Real.pi * 220 * (1 / 880 : ℝ)) = 1 := by
  have harg : 2 * Real.pi * 220 * (1 / 880 : ℝ) = Real.pi / 2 := by ring
  rw [harg, Real.sin_pi_div_two]

/-- The single Hi-Hat fixture with all-ones noise has sample 0 equal to 0.5
before normalization. -/
theorem raw_hh_zero : audioRaw hhGrid onesNoise 0 = 0.5 := by
  unfold hhGrid
  rw [raw_single 0 0 (by decide) (by decide) (100, 220, 100) 2 (by decide) onesNoise 0]
  rw [if_pos (by decide)]
  have hcast : ((0 - 0 * stepSamples : ℕ) : ℝ) / (SAMPLE_RATE : ℝ) = 0 := by
    simp
  rw [hcast]
  show synth_note 2 1 0 = 0.5
  unfold synth_note
  norm_num [Real.exp_zero]

/-- C1 counterexample helper: the code's Snare value at `t = 1/880`. -/
theorem snare_code_at_quarter :
    synth_note 1 0 (1 / 880) = Real.exp (-12 * (1 / 880 : ℝ)) * 0.09 := by
  unfold synth_note
  rw [if_neg (by norm_num), if_pos rfl, snare_sin_at_quarter]
  rw [show (-(1 / 880 : ℝ) * 12) = -12 * (1 / 880 : ℝ) from by ring]
  ring

/-- C1 counterexample helper: the claimed Snare value at `t = 1/880`. -/
theorem snare_spec_at_quarter :
    snareShapeSpec 0 (1 / 880) = Real.exp (-12 * (1 / 880 : ℝ)) * 0.3 := by
  unfold snareShapeSpec
  rw [snare_sin_at_quarter]
  ring

/-- C1 (counterexample): at `t = 1/880` with a zero noise draw, the code's
Snare sample is strictly below the value the claim's formula
`exp(-12 t) * (0.7 noise + 0.3 sin(2 pi 220 t))` prescribes, so the claimed
shape with effective sine weight 0.3 is false of `synth_note`. -/
theorem C1_snare_counterexample :
    synth_note 1 0 (1 / 880) < snareShapeSpec 0 (1 / 880) := by
  rw [snare_code_at_quarter, snare_spec_at_quarter]
  have hE := Real.exp_pos (-12 * (1 / 880 : ℝ))
  nlinarith

/-- C1 (amended): for every time offset `t` and noise draw, the Snare note
shape equals `exp(-12 t)` times `0.7 noise + 0.09 sin(2 pi 220 t)`: the
tone is pre-scaled by 0.3 (line 74) and blended at weight 0.3 (line 75),
so the sine's effective weight inside the blend is 0.09, not 0.3. -/
theorem C1_snare_shape (noise t : ℝ) :
    synth_note 1 noise t
      = Real.exp (-12 * t) * (0.7 * noise + 0.09 * Real.sin (2 * Real.pi * 220 * t)) := by
  unfold synth_note
  rw [if_neg (by norm_num), if_pos rfl]
  rw [show (-t * 12 : ℝ) = -12 * t from by ring]
  ring

/-- C2: for every grid and noise draw, every sample of the buffer returned
by `grid_to_audio` has absolute value at most 1; and whenever the
pre-normalization peak `max |buffer|` is positive (as it is when a cell
carries a registered instrument color and the noise draw does not cancel
the note), some in-range sample of the output reaches at least
`1 - 1e-6 / peak`, i.e. the output peak equals 1 up to the tolerance the
`+ 1e-6` guard introduces. -/
theorem C2_normalized_peak (grid : GridT) (ν : Noise) :
    (∀ n, |grid_to_audio grid ν n| ≤ 1) ∧
    (0 < rawPeak grid ν →
      ∃ n, n < numSamples ∧
        1 - 1e-6 / rawPeak grid ν ≤ |grid_to_audio grid ν n|) := by
  have hε : (0 : ℝ) < 1e-6 := by norm_num
  have hM0 : 0 ≤ rawPeak grid ν := rawPeak_nonneg grid ν
  have hden : 0 < rawPeak grid ν + 1e-6 := by linarith
  constructor
  · intro n
    by_cases hn : n < numSamples
    · have hb := abs_raw_le_rawPeak grid ν n hn
      unfold grid_to_audio
      rw [abs_div, abs_of_pos hden, div_le_one hden]
      linarith
    · have hz : audioRaw grid ν n = 0 := by
        apply raw_zero_tail
        have h1 : GRID_SIZE * stepSamples = 176384 := by decide
        have h2 : numSamples = 176400 := by decide
        rw [h1]
        rw [h2] at hn
        omega
      unfold grid_to_audio
      rw [hz, zero_div, abs_zero]
      norm_num
  · intro hM
    obtain ⟨n0, hn0, hEq⟩ :=
      Finset.exists_mem_eq_sup' numSamples_range_nonempty
        (fun n => |audioRaw grid ν n|)
    refine ⟨n0, Finset.mem_range.mp hn0, ?_⟩
    unfold grid_to_audio
    rw [abs_div, abs_of_pos hden]
    have hval : |audioRaw grid ν n0| = rawPeak grid ν := by
      unfold rawPeak
      exact hEq.symm
    rw [hval]
    rw [le_div_iff₀ hden]
    have h3 : (1e-6 / rawPeak grid ν) * rawPeak grid ν = 1e-6 :=
      div_mul_cancel₀ _ (ne_of_gt hM)
    have h4 : 0 < 1e-6 / rawPeak grid ν := div_pos hε hM
    nlinarith [h3, mul_pos h4 hε]

/-- C2 witness: the single-Hi-Hat fixture with all-ones noise has positive
raw peak, and the theorem applies to it. -/
theorem C2_witness :
    0 < rawPeak hhGrid onesNoise ∧
    ∃ n, n < numSamples ∧
      1 - 1e-6 / rawPeak hhGrid onesNoise ≤ |grid_to_audio hhGrid onesNoise n| := by
  have hb := abs_raw_le_rawPeak hhGrid onesNoise 0 (by decide)
  rw [raw_hh_zero] at hb
  have habs : |(0.5 : ℝ)| = 0.5 := by norm_num
  rw [habs] at hb
  have hpos : 0 < rawPeak hhGrid onesNoise := by linarith
  exact ⟨hpos, (C2_normalized_peak hhGrid onesNoise).2 hpos⟩

/-- C3: the rendered buffer has `LOOP_LEN_SEC * SAMPLE_RATE = 176400`
samples, and for a grid in which no cell's color matches a registered
instrument, every sample that `grid_to_audio` returns is exactly zero
(the `+ 1e-6` epsilon makes the normalizing division `0 / 1e-6 = 0`
rather than undefined). -/
theorem C3_empty_grid :
    numSamples = 176400 ∧
    ∀ grid : GridT, (∀ y x, COLOR_TO_IDX (grid y x) = none) →
      ∀ (ν : Noise) (n : ℕ), grid_to_audio grid ν n = 0 := by
  refine ⟨by decide, ?_⟩
  intro grid hg ν n
  have hraw : ∀ m, audioRaw grid ν m = 0 := by
    intro m
    rw [audioRaw_eq]
    apply Finset.sum_eq_zero
    intro x _
    apply Finset.sum_eq_zero
    intro y _
    exact cellTerm_none _ _ _ _ _ (hg y x)
  unfold grid_to_audio
  rw [hraw n, zero_div]

/-- C3 witness: the startup all-zero grid satisfies the emptiness
hypothesis, and its rendered sample 7 is zero. -/
theorem C3_witness : grid_to_audio initGrid zeroNoise 7 = 0 :=
  C3_empty_grid.2 initGrid (fun _ _ => colorIdx_background) zeroNoise 7

/-- Every step window fits inside the buffer. -/
theorem window_in_bounds (x : ℕ) (hx : x < GRID_SIZE) :
    x * stepSamples + stepSamples ≤ numSamples := by
  have h1 : stepSamples = 2756 := by decide
  have h2 : numSamples = 176400 := by decide
  rw [show GRID_SIZE = 64 from rfl] at hx
  rw [h1, h2]
  omega

/-- C4: `step_samples` is the floor of `SAMPLE_RATE * LOOP_LEN_SEC /
GRID_SIZE` (= 2756); every step window lies inside the buffer, so no write
ever falls outside it; the accumulated buffer is exactly the sum of the
per-cell contributions; each registered cell contributes precisely its
note samples on the index range `[col * step_samples, col * step_samples +
step_samples)` and nothing anywhere else. -/
theorem C4_layout :
    stepSamples = SAMPLE_RATE * LOOP_LEN_SEC / GRID_SIZE ∧
    stepSamples = 2756 ∧
    (∀ x, x < GRID_SIZE → x * stepSamples + stepSamples ≤ numSamples) ∧
    (∀ (grid : GridT) (ν : Noise) (n : ℕ),
      audioRaw grid ν n
        = ∑ x in Finset.range GRID_SIZE, ∑ y in Finset.range GRID_SIZE,
            cellTerm grid ν x y n) ∧
    (∀ (grid : GridT) (ν : Noise) (x y n : ℕ),
      n < x * stepSamples ∨ x * stepSamples + stepSamples ≤ n →
      cellTerm grid ν x y n = 0) ∧
    (∀ (grid : GridT) (ν : Noise) (x y n i : ℕ),
      x < GRID_SIZE → COLOR_TO_IDX (grid y x) = some i →
      x * stepSamples ≤ n → n < x * stepSamples + stepSamples →
      cellTerm grid ν x y n
        = synth_note i (ν x y (n - x * stepSamples))
            ((↑(n - x * stepSamples) : ℝ) / (SAMPLE_RATE : ℝ))) := by
  refine ⟨rfl, by decide, window_in_bounds, audioRaw_eq, ?_, ?_⟩
  · intro grid ν x y n h
    cases hcol : COLOR_TO_IDX (grid y x) with
    | none => exact cellTerm_none _ _ _ _ _ hcol
    | some i =>
        rw [cellTerm_some _ _ _ _ _ _ hcol]
        apply if_neg
        rintro ⟨hc1, hc2⟩
        cases h with
        | inl h => exact absurd hc1 (not_le.mpr h)
        | inr h =>
            have hlt := lt_of_lt_of_le hc2 (min_le_left _ _)
            exact absurd hlt (not_lt.mpr h)
  · intro grid ν x y n i hx hcol hle hlt
    rw [cellTerm_some _ _ _ _ _ _ hcol]
    exact if_pos ⟨hle, lt_min_iff.mpr ⟨hlt, lt_of_lt_of_le hlt (window_in_bounds x hx)⟩⟩

/-- C4 witness: the last window fits in the buffer, and the Kick fixture's
cell contributes its note sample at position 0 of its window. -/
theorem C4_witness :
    (63 * stepSamples + stepSamples ≤ numSamples) ∧
    cellTerm kickGrid zeroNoise 0 0 0
      = synth_note 0 (zeroNoise 0 0 (0 - 0 * stepSamples))
          ((↑(0 - 0 * stepSamples) : ℝ) / (SAMPLE_RATE : ℝ)) := by
  refine ⟨C4_layout.2.2.1 63 (by decide), ?_⟩
  exact C4_layout.2.2.2.2.2 kickGrid zeroNoise 0 0 0 0 (by decide) (by decide)
    (by decide) (by decide)

/-- The code's Kick note shape agrees with the spec's formula everywhere. -/
theorem kick_shape_eq (noise t : ℝ) : synth_note 0 noise t = kickShapeSpec t := by
  unfold synth_note kickShapeSpec
  rw [if_pos rfl]
  rw [show (-t * 8 : ℝ) = -8 * t from by ring]

/-- C5: the Kick note shape is `0.8 * exp(-8 t) * sin(2 pi 55 (1 - 0.5 t) t)`,
and a grid holding a single Kick cell at column 0 renders, before
normalization, exactly this formula at `t = n / SAMPLE_RATE` for the first
`stepSamples` samples and exactly zero at every later sample. -/
theorem C5_kick :
    (∀ noise t, synth_note 0 noise t = kickShapeSpec t) ∧
    (∀ y0, y0 < GRID_SIZE → ∀ (ν : Noise) (n : ℕ),
      audioRaw (singleCell y0 0 (255, 80, 80)) ν n
        = if n < stepSamples then kickShapeSpec ((n : ℝ) / (SAMPLE_RATE : ℝ)) else 0) := by
  refine ⟨kick_shape_eq, ?_⟩
  intro y0 hy ν n
  rw [raw_single y0 0 hy (by decide) (255, 80, 80) 0 (by decide) ν n]
  have hmin : min (0 * stepSamples + stepSamples) numSamples = stepSamples := by decide
  have hcond :
      (0 * stepSamples ≤ n ∧ n < min (0 * stepSamples + stepSamples) numSamples)
        ↔ n < stepSamples := by
    constructor
    · rintro ⟨_, h2⟩
      rw [hmin] at h2
      exact h2
    · intro h
      refine ⟨by rw [Nat.zero_mul]; exact Nat.zero_le n, ?_⟩
      rw [hmin]
      exact h
  rw [if_congr hcond rfl rfl]
  have harg : n - 0 * stepSamples = n := by rw [Nat.zero_mul, Nat.sub_zero]
  rw [harg]
  by_cases hn : n < stepSamples
  · rw [if_pos hn, if_pos hn, kick_shape_eq]
  · rw [if_neg hn, if_neg hn]

/-- C5 witness: at row 3, sample 5 of the single-Kick-at-column-0 grid. -/
theorem C5_witness :
    (3 : ℕ) < GRID_SIZE ∧
    audioRaw (singleCell 3 0 (255, 80, 80)) zeroNoise 5
      = if 5 < stepSamples then kickShapeSpec (((5 : ℕ) : ℝ) / (SAMPLE_RATE : ℝ)) else 0 :=
  ⟨by decide, C5_kick.2 3 (by decide) zeroNoise 5⟩

/-- C6: for the noise-free instruments (Kick, Bass, Lead), the row of a
cell never affects its rendered contribution — only the column does — and
two identical cells in the same column at distinct rows stack additively
before normalization: their grid renders to the sum of the two single-cell
renders, i.e. twice one note. -/
theorem C6_row_stacking :
    (∀ (c : Color) (i : ℕ), COLOR_TO_IDX c = some i → i = 0 ∨ i = 3 ∨ i = 4 →
      ∀ y1 y2 x, y1 < GRID_SIZE → y2 < GRID_SIZE → x < GRID_SIZE →
      ∀ (ν1 ν2 : Noise) (n : ℕ),
        audioRaw (singleCell y1 x c) ν1 n = audioRaw (singleCell y2 x c) ν2 n) ∧
    (∀ (c : Color) (i : ℕ), COLOR_TO_IDX c = some i → i = 0 ∨ i = 3 ∨ i = 4 →
      ∀ y1 y2 x, y1 ≠ y2 → y1 < GRID_SIZE → y2 < GRID_SIZE → x < GRID_SIZE →
      ∀ (ν : Noise) (n : ℕ),
        audioRaw (twoCell y1 y2 x c) ν n
          = audioRaw (singleCell y1 x c) ν n + audioRaw (singleCell y2 x c) ν n ∧
        audioRaw (twoCell y1 y2 x c) ν n
          = 2 * audioRaw (singleCell y1 x c) ν n) := by
  constructor
  · intro c i hc hdet y1 y2 x hy1 hy2 hx ν1 ν2 n
    rw [raw_single y1 x hy1 hx c i hc, raw_single y2 x hy2 hx c i hc]
    by_cases hn : x * stepSamples ≤ n ∧ n < min (x * stepSamples + stepSamples) numSamples
    · rw [if_pos hn, if_pos hn]
      exact synth_note_det i hdet _ _ _
    · rw [if_neg hn, if_neg hn]
  · intro c i hc hdet y1 y2 x hne hy1 hy2 hx ν n
    have hA := raw_two y1 y2 x hne hy1 hy2 hx c i hc ν n
    have h1 := raw_single y1 x hy1 hx c i hc ν n
    have h2 := raw_single y2 x hy2 hx c i hc ν n
    constructor
    · rw [hA, h1, h2]
    · rw [hA, h1]
      by_cases hn : x * stepSamples ≤ n ∧ n < min (x * stepSamples + stepSamples) numSamples
      · rw [if_pos hn, if_pos hn]
        rw [synth_note_det i hdet (ν x y2 (n - x * stepSamples))
          (ν x y1 (n - x * stepSamples))]
        ring
      · rw [if_neg hn, if_neg hn]
        ring

/-- C6 witness: Kick cells at rows 0 and 1 of column 2. -/
theorem C6_witness :
    audioRaw (singleCell 0 2 (255, 80, 80)) zeroNoise 5
      = audioRaw (singleCell 1 2 (255, 80, 80)) onesNoise 5 ∧
    audioRaw (twoCell 0 1 2 (255, 80, 80)) zeroNoise 5512
      = 2 * audioRaw (singleCell 0 2 (255, 80, 80)) zeroNoise 5512 := by
  constructor
  · exact C6_row_stacking.1 (255, 80, 80) 0 (by decide) (Or.inl rfl) 0 1 2
      (by decide) (by decide) (by decide) zeroNoise onesNoise 5
  · exact (C6_row_stacking.2 (255, 80, 80) 0 (by decide) (Or.inl rfl) 0 1 2
      (by decide) (by decide) (by decide) (by decide) zeroNoise 5512).2

/-- The background color satisfies the grid invariant. -/
theorem validColor_background : validColor (0, 0, 0) := Or.inr rfl

/-- Every registered instrument color satisfies the grid invariant. -/
theorem validColor_inst (i : Fin 5) : validColor (instColor i) := by
  left
  fin_cases i <;> decide

/-- Writing a valid color anywhere preserves the grid invariant. -/
theorem validGrid_setCell (g : GridT) (y x : ℕ) (c : Color)
    (hg : validGrid g) (hcv : validColor c) : validGrid (setCell g y x c) := by
  intro r cc
  unfold setCell
  split
  · exact hcv
  · exact hg r cc

/-- C7: the initial allocation, left-click painting, right-click erasing,
reset and random mutation (one step, and a whole `mutate_grid` run) all
preserve the invariant that every cell is one of the five registered
instrument colors or the background `(0, 0, 0)`. -/
theorem C7_grid_invariant :
    validGrid initGrid ∧
    (∀ (g : GridT) (y x : ℕ) (idx : Fin 5),
      validGrid g → validGrid (paintCell g y x idx)) ∧
    (∀ (g : GridT) (y x : ℕ), validGrid g → validGrid (eraseCell g y x)) ∧
    (∀ g : GridT, validGrid (resetGrid g)) ∧
    (∀ (g : GridT) (x y : ℕ) (flip : Bool) (r : Fin 5),
      validGrid g → validGrid (mutateStep g x y flip r)) ∧
    (∀ (g : GridT) (choices : List (ℕ × ℕ × Bool × Fin 5)),
      validGrid g → validGrid (mutate_grid g choices)) := by
  have hmut : ∀ (g : GridT) (x y : ℕ) (flip : Bool) (r : Fin 5),
      validGrid g → validGrid (mutateStep g x y flip r) := by
    intro g x y flip r hg
    unfold mutateStep
    cases flip with
    | true =>
        rw [if_pos rfl]
        exact validGrid_setCell g y x _ hg (validColor_inst r)
    | false =>
        rw [if_neg (by simp)]
        exact validGrid_setCell g y x _ hg (hg _ _)
  refine ⟨fun _ _ => Or.inr rfl, ?_, ?_, ?_, hmut, ?_⟩
  · intro g y x idx hg
    exact validGrid_setCell g y x _ hg (validColor_inst idx)
  · intro g y x hg
    exact validGrid_setCell g y x _ hg validColor_background
  · intro g _ _
    exact Or.inr rfl
  · intro g choices
    induction choices generalizing g with
    | nil => intro hg; exact hg
    | cons ch rest ih =>
        intro hg
        exact ih (mutateStep g ch.1 ch.2.1 ch.2.2.1 ch.2.2.2)
          (hmut g ch.1 ch.2.1 ch.2.2.1 ch.2.2.2 hg)

/-- C7 witness: painting the fresh grid, and a one-step mutation run. -/
theorem C7_witness :
    validGrid (paintCell initGrid 0 0 0) ∧
    validGrid (mutate_grid initGrid [(1, 2, true, 3)]) :=
  ⟨C7_grid_invariant.2.1 initGrid 0 0 0 C7_grid_invariant.1,
   C7_grid_invariant.2.2.2.2.2 initGrid [(1, 2, true, 3)] C7_grid_invariant.1⟩

/-- The state-threaded inner loop never modifies the grid component and
computes the pure inner loop on the buffer component. -/
theorem foldlSt_inner (ν : Noise) (x : ℕ) :
    ∀ (l : List ℕ) (acc : (ℕ → ℝ) × GridT),
      l.foldl (fun a y => updateCellSt ν x y a) acc
        = (l.foldl (fun b y => updateCell acc.2 ν x y b) acc.1, acc.2) := by
  intro l
  induction l with
  | nil => intro acc; rfl
  | cons a l ih =>
      intro acc
      simp only [List.foldl_cons]
      rw [ih (updateCellSt ν x a acc)]
      rfl

/-- The state-threaded loop nest never modifies the grid component and
computes the pure loop nest on the buffer component. -/
theorem foldlSt_outer (ν : Noise) :
    ∀ (l : List ℕ) (acc : (ℕ → ℝ) × GridT),
      l.foldl
        (fun a x =>
          (List.range GRID_SIZE).foldl (fun a2 y => updateCellSt ν x y a2) a)
        acc
        = (l.foldl
            (fun b x =>
              (List.range GRID_SIZE).foldl (fun b2 y => updateCell acc.2 ν x y b2) b)
            acc.1,
          acc.2) := by
  intro l
  induction l with
  | nil => intro acc; rfl
  | cons a l ih =>
      intro acc
      simp only [List.foldl_cons]
      rw [foldlSt_inner ν a (List.range GRID_SIZE) acc]
      rw [ih ((List.range GRID_SIZE).foldl (fun b y => updateCell acc.2 ν a y b) acc.1,
        acc.2)]

/-- The state-threaded accumulation equals the pure one and returns the
grid unchanged. -/
theorem audioRawSt_eq (grid : GridT) (ν : Noise) :
    audioRawSt grid ν = (audioRaw grid ν, grid) := by
  unfold audioRawSt audioRaw
  rw [foldlSt_outer ν (List.range GRID_SIZE) ((fun _ => (0 : ℝ)), grid)]

/-- C8: rendering has no side effect on the grid — threading the grid
through every loop iteration of `grid_to_audio` returns it unchanged —
and the buffer it computes is exactly the pure function `grid_to_audio`
of the grid and the noise draw. -/
theorem C8_no_side_effects (grid : GridT) (ν : Noise) :
    (grid_to_audio_st grid ν).2 = grid ∧
    ∀ n, (grid_to_audio_st grid ν).1 n = grid_to_audio grid ν n := by
  constructor
  · unfold grid_to_audio_st
    rw [audioRawSt_eq]
  · intro n
    unfold grid_to_audio_st
    rw [audioRawSt_eq]
    unfold grid_to_audio rawPeak
    rfl

/-- C9: for a grid containing no Snare-colored and no Hi-Hat-colored
cells, the rendered buffer does not depend on the noise source: two
renders with different noise draws agree on every sample. -/
theorem C9_two_run_determinism :
    ∀ grid : GridT,
      (∀ y x, grid y x ≠ (80, 160, 255) ∧ grid y x ≠ (100, 220, 100)) →
      ∀ (ν1 ν2 : Noise) (n : ℕ), grid_to_audio grid ν1 n = grid_to_audio grid ν2 n := by
  intro grid hg ν1 ν2 n
  have hraw : ∀ m, audioRaw grid ν1 m = audioRaw grid ν2 m := by
    intro m
    rw [audioRaw_eq, audioRaw_eq]
    apply Finset.sum_congr rfl
    intro x _
    apply Finset.sum_congr rfl
    intro y _
    cases hcol : COLOR_TO_IDX (grid y x) with
    | none => rw [cellTerm_none _ _ _ _ _ hcol, cellTerm_none _ _ _ _ _ hcol]
    | some i =>
        have hdet : i = 0 ∨ i = 3 ∨ i = 4 := by
          rcases colorIdx_cases _ _ hcol with ⟨hcc, hi⟩ | ⟨hcc, hi⟩ | ⟨hcc, hi⟩ |
            ⟨hcc, hi⟩ | ⟨hcc, hi⟩
          · exact Or.inl hi
          · exact absurd hcc (hg y x).1
          · exact absurd hcc (hg y x).2
          · exact Or.inr (Or.inl hi)
          · exact Or.inr (Or.inr hi)
        rw [cellTerm_some _ _ _ _ _ _ hcol, cellTerm_some _ _ _ _ _ _ hcol]
        by_cases hn : x * stepSamples ≤ m ∧ m < min (x * stepSamples + stepSamples) numSamples
        · rw [if_pos hn, if_pos hn]
          exact synth_note_det i hdet _ _ _
        · rw [if_neg hn, if_neg hn]
  have hpeak : rawPeak grid ν1 = rawPeak grid ν2 := by
    unfold rawPeak
    apply Finset.sup'_congr _ rfl
    intro a _
    rw [hraw a]
  unfold grid_to_audio
  rw [hraw n, hpeak]

/-- C9 witness: the single-Kick fixture rendered under two different
noise draws. -/
theorem C9_witness :
    grid_to_audio kickGrid zeroNoise 9 = grid_to_audio kickGrid onesNoise 9 := by
  apply C9_two_run_determinism
  intro y x
  have hval : kickGrid y x = (255, 80, 80) ∨ kickGrid y x = (0, 0, 0) := by
    unfold kickGrid singleCell setCell
    split
    · exact Or.inl rfl
    · exact Or.inr rfl
  rcases hval with h | h <;> rw [h] <;> exact ⟨by decide, by decide⟩

/-- C10: `stepSamples = 2756`, so the 64 step windows cover only the first
`64 * 2756 = 176384` samples of the 176400-sample buffer: the final 16
samples (indices 176384 through 176399) of any render are exactly zero. -/
theorem C10_final_silence :
    stepSamples = 2756 ∧ GRID_SIZE * stepSamples = 176384 ∧ numSamples = 176400 ∧
    ∀ (grid : GridT) (ν : Noise) (n : ℕ), 176384 ≤ n → n < 176400 →
      grid_to_audio grid ν n = 0 := by
  refine ⟨by decide, by decide, by decide, ?_⟩
  intro grid ν n h1 _
  have hz : audioRaw grid ν n = 0 := by
    apply raw_zero_tail
    rw [show GRID_SIZE * stepSamples = 176384 from by decide]
    exact h1
  unfold grid_to_audio
  rw [hz, zero_div]

/-- C10 witness: sample 176390 of the Kick fixture's render is zero. -/
theorem C10_witness : grid_to_audio kickGrid onesNoise 176390 = 0 :=
  C10_final_silence.2.2.2 kickGrid onesNoise 176390 (by decide) (by decide)

end PixelSynth
